import Mathlib

/-!
Verification development for the tool-acquisition-and-cache flow of the
actions-toolkit repository (src/undock/install.ts and the Cache class).

The TypeScript source is shallowly embedded: every pure computation becomes a
Lean function with the same name and structure; every interaction with an
external collaborator (file system, hosted tool cache, GitHub Actions cache,
HTTP client, archive extraction) is a parameter of the embedding, an oracle
that either yields a value or fails, mirroring a JavaScript call that either
returns or throws.  Side effects performed along the way are recorded in an
explicit event log, so that statements such as "the local registration remains
in effect" or "no remote upload is performed" are statable and provable.
-/

namespace ActionsToolkit

/-- Runtime environment consulted by the source through `os.platform()`,
`os.arch()`, `process.config.variables.arm_version` and `os.homedir()`.
`armVersion = none` models an undefined `arm_version`; `some ""` would be a
falsy (empty) string, matching the JavaScript truthiness test used by the
source. -/
structure Env where
  osPlatform : String
  osArch : String
  armVersion : Option String
  homedir : String
  deriving DecidableEq, Repr

/-- JavaScript truthiness of a possibly-undefined string value:
`undefined` and `""` are falsy, every other string is truthy. -/
def jsTruthy : Option String → Bool
  | none => false
  | some s => !s.isEmpty

/-- Errors surfaced by the embedded code.  `thrown` is an error constructed by
the repository itself (`throw new Error(msg)`); `lib` is an error propagated
out of an external library or system call. -/
inductive JSError where
  | thrown (msg : String) : JSError
  | lib (msg : String) : JSError
  deriving DecidableEq, Repr

/-- Observable side effects of one invocation, recorded in order. -/
inductive Event where
  | copied (src dst : String) : Event
  | htcRegistered (dir name version plat : String) : Event
  | ghaRestoreCalled (paths : List String) (key : String) : Event
  | ghaSaveCalled (paths : List String) (key : String) : Event
  | manifestFetched (url : String) : Event
  | toolDownloaded (url : String) : Event
  | extracted (zip : Bool) (path : String) : Event
  deriving DecidableEq, Repr

/-- `path.join` on already-normalized segments, as used by the source:
the segments joined by `/`. -/
def pathJoin : List String → String
  | [] => ""
  | [s] => s
  | s :: rest => s ++ "/" ++ pathJoin rest

/-- Sequential `%s` substitution of node's `util.format`: each `%s` in the
template consumes the next argument; `%%` renders as a literal percent sign;
placeholders beyond the argument list are left verbatim. -/
def formatPS : List Char → List String → List Char
  | [], _ => []
  | '%' :: 's' :: rest, a :: args => a.data ++ formatPS rest args
  | '%' :: '%' :: rest, args => '%' :: formatPS rest args
  | c :: rest, args => c :: formatPS rest args

/-- String-level wrapper of `formatPS`. -/
def fmt (template : String) (args : List String) : String :=
  String.mk (formatPS template.data args)

/-! ### node-semver (strict mode), as used through `semver.clean` and
`semver.valid` -/

/-- Leading and trailing whitespace removed, as `String.prototype.trim`. -/
def trimChars (l : List Char) : List Char :=
  ((l.dropWhile Char.isWhitespace).reverse.dropWhile Char.isWhitespace).reverse

/-- Split at every occurrence of `sep`, keeping empty pieces
(`"a..b"` → `["a", "", "b"]`). -/
def splitOnChar (sep : Char) : List Char → List (List Char)
  | [] => [[]]
  | c :: rest =>
    let r := splitOnChar sep rest
    if c = sep then [] :: r
    else
      match r with
      | [] => [[c]]
      | a :: as => (c :: a) :: as

/-- Split at the first occurrence of `sep`; the second component is `none`
when `sep` does not occur. -/
def splitFirstAux (sep : Char) : List Char → List Char × Option (List Char)
  | [] => ([], none)
  | c :: rest =>
    if c = sep then ([], some rest)
    else
      let r := splitFirstAux sep rest
      (c :: r.1, r.2)

/-- The number denoted by a list of decimal digits. -/
def natOfDigits : List Char → Nat → Nat
  | [], acc => acc
  | c :: rest, acc => natOfDigits rest (10 * acc + (c.toNat - 48))

/-- A numeric identifier of the semver grammar: `0` or `[1-9][0-9]*`
(no leading zeros). -/
def isNumericIdent (l : List Char) : Bool :=
  !l.isEmpty && l.all Char.isDigit && (l == ['0'] || l.head? != some '0')

/-- A character allowed in prerelease/build identifiers: `[0-9A-Za-z-]`. -/
def isIdentChar (c : Char) : Bool :=
  c.isDigit || c.isAlpha || c == '-'

/-- A prerelease identifier: alphanumeric/hyphen, nonempty, and when purely
numeric it must not have leading zeros. -/
def isPreIdent (l : List Char) : Bool :=
  !l.isEmpty && l.all isIdentChar &&
    (!l.all Char.isDigit || (l == ['0'] || l.head? != some '0'))

/-- A build identifier: alphanumeric/hyphen, nonempty. -/
def isBuildIdent (l : List Char) : Bool :=
  !l.isEmpty && l.all isIdentChar

/-- A parsed strict semantic version (node-semver `SemVer`). -/
structure SemVer where
  major : Nat
  minor : Nat
  patch : Nat
  prerelease : List String
  build : List String
  deriving DecidableEq, Repr

/-- Dot-joined identifiers, as `Array.prototype.join('.')`. -/
def joinDots : List String → String
  | [] => ""
  | [a] => a
  | a :: as => a ++ "." ++ joinDots as

/-- The canonical `version` string of a parsed semver: build metadata is not
part of it. -/
def SemVer.version (v : SemVer) : String :=
  toString v.major ++ "." ++ toString v.minor ++ "." ++ toString v.patch ++
    (if v.prerelease.isEmpty then "" else "-" ++ joinDots v.prerelease)

/-- Strict parse of node-semver: trim, one optional leading `v`, a
`major.minor.patch` core of numeric identifiers, an optional `-prerelease`
(dot-separated prerelease identifiers) and an optional `+build`
(dot-separated build identifiers). -/
def parseSemver (input : String) : Option SemVer :=
  if input.length > 256 then none
  else
    let s := trimChars input.data
    let s := match s with | 'v' :: rest => rest | other => other
    let bp := splitFirstAux '+' s
    let cp := splitFirstAux '-' bp.1
    match splitOnChar '.' cp.1 with
    | [ma, mi, pa] =>
      if isNumericIdent ma && isNumericIdent mi && isNumericIdent pa then
        let pre : List (List Char) := match cp.2 with
          | none => [] | some p => splitOnChar '.' p
        let bld : List (List Char) := match bp.2 with
          | none => [] | some b => splitOnChar '.' b
        if pre.all isPreIdent && bld.all isBuildIdent then
          some ⟨natOfDigits ma 0, natOfDigits mi 0, natOfDigits pa 0,
            pre.map String.mk, bld.map String.mk⟩
        else none
      else none
    | _ => none

/-- `semver.valid`: the canonical version string when the input parses,
otherwise null. -/
def semverValid (s : String) : Option String :=
  (parseSemver s).map SemVer.version

/-- `semver.clean`: trim, strip all leading `=`/`v` characters, then parse;
the canonical version string on success, null otherwise. -/
def semverClean (s : String) : Option String :=
  (parseSemver (String.mk ((trimChars s.data).dropWhile (fun c => c == '=' || c == 'v')))).map
    SemVer.version

/-! ### The Cache class (two-tier artifact cache) -/

/-- The options record of the Cache constructor.  Note: the interface declares
exactly these four fields; in particular there is no field for disabling the
GitHub Actions cache backend. -/
structure CacheOpts where
  htcName : String
  htcVersion : String
  baseCacheDir : String
  cacheFile : String
  deriving DecidableEq, Repr

/-- The external collaborators of the Cache class.  `tcFind` is
`tc.find` (synchronous, empty string on miss); `tcCacheDir` is `tc.cacheDir`
(registers a directory with the hosted tool cache and yields its path);
`ghaFeatureAvailable` is `cache.isFeatureAvailable()`; `ghaRestoreCache`
yields the hit key (`none` on miss); `ghaSaveCache` uploads;
`copyFile` is `fs.copyFileSync`.  An `Except.error` models the call
throwing/rejecting. -/
structure CacheWorld where
  tcFind : String → String → String → String
  tcCacheDir : String → String → String → String → Except String String
  ghaFeatureAvailable : Bool
  ghaRestoreCache : List String → String → Except String (Option String)
  ghaSaveCache : List String → String → Except String Nat
  copyFile : String → String → Except String Unit

/-- `Cache.platform()`:
`${os.platform()}-${os.arch()}${arm_version ? 'v' + arm_version : ''}`. -/
def platformString (env : Env) : String :=
  env.osPlatform ++ "-" ++ env.osArch ++
    (if jsTruthy env.armVersion then "v" ++ env.armVersion.getD "" else "")

/-- A constructed Cache instance (its `opts` plus the environment it reads).
The constructor's eager `mkdirSync` of the cache directory is a side effect no
statement here depends on and is elided. -/
structure Cache where
  opts : CacheOpts
  env : Env
  deriving DecidableEq, Repr

namespace Cache

/-- `this.platform()`. -/
def platform (c : Cache) : String :=
  platformString c.env

/-- `this.ghaCacheKey = util.format('%s-%s-%s', htcName, htcVersion, platform)`. -/
def ghaCacheKey (c : Cache) : String :=
  fmt "%s-%s-%s" [c.opts.htcName, c.opts.htcVersion, c.platform]

/-- `this.cacheDir = path.join(baseCacheDir, htcVersion, platform)`. -/
def cacheDir (c : Cache) : String :=
  pathJoin [c.opts.baseCacheDir, c.opts.htcVersion, c.platform]

/-- `this.cachePath = path.join(cacheDir, cacheFile)`. -/
def cachePath (c : Cache) : String :=
  pathJoin [c.cacheDir, c.opts.cacheFile]

/-- `copyToCache(file)`: `fs.copyFileSync(file, this.cachePath)` and return
`this.cachePath`. -/
def copyToCache (c : Cache) (w : CacheWorld) (file : String) :
    Except JSError String × List Event :=
  match w.copyFile file c.cachePath with
  | .ok _ => (.ok c.cachePath, [.copied file c.cachePath])
  | .error e => (.error (.lib e), [])

/-- `Cache.save(file)`: copy into the canonical cache path, register the cache
directory with the hosted tool cache, and, when the GitHub Actions cache
feature is available, upload the directory under `ghaCacheKey`.  No call is
wrapped in a try/catch, so every failure propagates. -/
def save (c : Cache) (w : CacheWorld) (file : String) :
    Except JSError String × List Event :=
  match c.copyToCache w file with
  | (.error e, log) => (.error e, log)
  | (.ok cp, log1) =>
    match w.tcCacheDir c.cacheDir c.opts.htcName c.opts.htcVersion c.platform with
    | .error e => (.error (.lib e), log1)
    | .ok _ =>
      let log2 := log1 ++
        [Event.htcRegistered c.cacheDir c.opts.htcName c.opts.htcVersion c.platform]
      if w.ghaFeatureAvailable then
        match w.ghaSaveCache [c.cacheDir] c.ghaCacheKey with
        | .error e =>
          (.error (.lib e), log2 ++ [Event.ghaSaveCalled [c.cacheDir] c.ghaCacheKey])
        | .ok _ =>
          (.ok cp, log2 ++ [Event.ghaSaveCalled [c.cacheDir] c.ghaCacheKey])
      else
        (.ok cp, log2)

/-- `Cache.find()`: hosted tool cache first; on local miss and when the GitHub
Actions cache feature is available, try `restoreCache`; on restore hit,
re-register with the hosted tool cache and copy into the canonical path;
otherwise return the empty string.  No call is wrapped in a try/catch. -/
def find (c : Cache) (w : CacheWorld) : Except JSError String × List Event :=
  let htcPath := w.tcFind c.opts.htcName c.opts.htcVersion c.platform
  if htcPath ≠ "" then
    c.copyToCache w (htcPath ++ "/" ++ c.opts.cacheFile)
  else if w.ghaFeatureAvailable then
    match w.ghaRestoreCache [c.cacheDir] c.ghaCacheKey with
    | .error e =>
      (.error (.lib e), [.ghaRestoreCalled [c.cacheDir] c.ghaCacheKey])
    | .ok restored =>
      let log1 := [Event.ghaRestoreCalled [c.cacheDir] c.ghaCacheKey]
      if jsTruthy restored then
        match w.tcCacheDir c.cacheDir c.opts.htcName c.opts.htcVersion c.platform with
        | .error e => (.error (.lib e), log1)
        | .ok htcPath2 =>
          let log2 := log1 ++
            [Event.htcRegistered c.cacheDir c.opts.htcName c.opts.htcVersion c.platform]
          let r := c.copyToCache w (htcPath2 ++ "/" ++ c.opts.cacheFile)
          (r.1, log2 ++ r.2)
      else
        (.ok "", log1)
  else
    (.ok "", [])

end Cache

/-! ### The Install class for undock (src/undock/install.ts) -/

/-- `DownloadVersion` from types/undock. -/
structure DownloadVersion where
  version : String
  downloadURL : String
  releasesURL : String
  deriving DecidableEq, Repr

/-- The fields of a GitHub release record that the flow reads. -/
structure GitHubRelease where
  tag_name : String
  deriving DecidableEq, Repr

/-- Outcome of `http.get` followed by `readBody`: the (possibly undefined)
status code of the response message, and the body text. -/
structure HttpResponse where
  statusCode : Option Nat
  body : String
  deriving DecidableEq, Repr

/-- External collaborators of the Install class.  `fetch` models
`http.get(url)` plus `resp.readBody()` (an `Except.error` is a network
failure/rejection); `jsonParse` models `JSON.parse` of the manifest body into
a `Record<string, GitHubRelease>` (association list, first binding wins);
`downloadTool`, `extractZip`, `extractTar` are the tool-cache downloads and
extractions. -/
structure InstallWorld where
  env : Env
  fetch : String → Except String HttpResponse
  jsonParse : String → Except String (List (String × GitHubRelease))
  cacheWorld : CacheWorld
  downloadTool : String → Except String String
  extractZip : String → Except String String
  extractTar : String → Except String String

/-- `resp.message.statusCode || 500`: a missing or falsy (zero) status code is
replaced by 500. -/
def effectiveStatus : Option Nat → Nat
  | none => 500
  | some n => if n = 0 then 500 else n

/-- `releases[key]` on the parsed manifest object. -/
def lookupRelease (releases : List (String × GitHubRelease)) (key : String) :
    Option GitHubRelease :=
  (releases.find? (fun kv => kv.1 = key)).map (fun kv => kv.2)

namespace Install

/-- `Install.getDownloadVersion(v)`: a fixed download URL template and a fixed
releases manifest URL. -/
def getDownloadVersion (v : String) : DownloadVersion :=
  { version := v
    downloadURL := "https://github.com/crazy-max/undock/releases/download/v%s/%s"
    releasesURL := "https://raw.githubusercontent.com/docker/actions-toolkit/main/.github/undock-releases.json" }

/-- `Install.getRelease(version)`: fetch the manifest, default a falsy status
code to 500, throw on status `>= 400` with a message carrying the URL, the
status code and the body, parse the body, and throw a not-found error when the
requested version has no entry. -/
def getRelease (w : InstallWorld) (version : DownloadVersion) :
    Except JSError GitHubRelease × List Event :=
  let log : List Event := [.manifestFetched version.releasesURL]
  match w.fetch version.releasesURL with
  | .error e => (.error (.lib e), log)
  | .ok resp =>
    let body := resp.body
    let statusCode := effectiveStatus resp.statusCode
    if statusCode ≥ 400 then
      (.error (.thrown ("Failed to get Undock releases from " ++ version.releasesURL ++
        " with status code " ++ toString statusCode ++ ": " ++ body)), log)
    else
      match w.jsonParse body with
      | .error e => (.error (.lib e), log)
      | .ok releases =>
        match lookupRelease releases version.version with
        | some rel => (.ok rel, log)
        | none =>
          (.error (.thrown ("Cannot find Undock release " ++ version.version ++
            " in " ++ version.releasesURL)), log)

/-- `Install.vspec(version)`: `version.replace(/^v+|v+$/g, '')` — strip the
maximal leading run and the maximal trailing run of `v` characters. -/
def vspec (version : String) : String :=
  String.mk (((version.data.dropWhile (fun c => c == 'v')).reverse.dropWhile
    (fun c => c == 'v')).reverse)

/-- `Install.filename(version)`: map the CPU architecture
(x64→amd64, ppc64→ppc64le, arm→armv{revision} or plain arm, default
pass-through), map win32 to windows, pick `.zip` on win32 and `.tar.gz`
elsewhere, and format `undock_%s_%s_%s%s`. -/
def filename (env : Env) (version : String) : String :=
  let arch : String :=
    if env.osArch = "x64" then "amd64"
    else if env.osArch = "ppc64" then "ppc64le"
    else if env.osArch = "arm" then
      (if jsTruthy env.armVersion then "armv" ++ env.armVersion.getD "" else "arm")
    else env.osArch
  let platform : String := if env.osPlatform = "win32" then "windows" else env.osPlatform
  let ext : String := if env.osPlatform = "win32" then ".zip" else ".tar.gz"
  fmt "undock_%s_%s_%s%s" [version, platform, arch, ext]

/-- `Install.download(v, ghaNoCache)`: resolve the release through the
manifest, normalize its tag into a version spec, validate it with
`semver.clean`/`semver.valid`, construct the Cache (the source also writes a
`ghaNoCache` property into the options object, but `CacheOpts` declares no
such field and the Cache class never reads it), return the cache hit when
`find` yields a nonempty path, and otherwise download, extract and `save`. -/
def download (w : InstallWorld) (v : String) (ghaNoCache : Option Bool) :
    Except JSError String × List Event :=
  let version := getDownloadVersion v
  match getRelease w version with
  | (.error e, log) => (.error e, log)
  | (.ok release, log1) =>
    let vs := vspec release.tag_name
    let c := (semverClean vs).getD ""
    if (semverValid c).isNone then
      (.error (.thrown ("Invalid Undock version \"" ++ vs ++ "\".")), log1)
    else
      let installCache : Cache :=
        { opts :=
            { htcName := "undock-dl-bin"
              htcVersion := vs
              baseCacheDir := pathJoin [w.env.homedir, ".bin"]
              cacheFile := if w.env.osPlatform = "win32" then "undock.exe" else "undock" }
          env := w.env }
      match installCache.find w.cacheWorld with
      | (.error e, log2) => (.error e, log1 ++ log2)
      | (.ok cacheFoundPath, log2) =>
        if cacheFoundPath ≠ "" then
          (.ok cacheFoundPath, log1 ++ log2)
        else
          let downloadURL := fmt version.downloadURL [vs, filename w.env vs]
          match w.downloadTool downloadURL with
          | .error e => (.error (.lib e), log1 ++ log2 ++ [.toolDownloaded downloadURL])
          | .ok htcDownloadPath =>
            let log3 := log1 ++ log2 ++ [Event.toolDownloaded downloadURL]
            match (if w.env.osPlatform = "win32" then w.extractZip htcDownloadPath
                   else w.extractTar htcDownloadPath) with
            | .error e => (.error (.lib e), log3)
            | .ok htcExtPath =>
              let log4 := log3 ++
                [Event.extracted (w.env.osPlatform = "win32") htcExtPath]
              let exePath := pathJoin [htcExtPath,
                if w.env.osPlatform = "win32" then "undock.exe" else "undock"]
              let r := installCache.save w.cacheWorld exePath
              (r.1, log4 ++ r.2)

end Install

/-! ### Definitions written from the specification text, for comparison with
the embedded source -/

/-- Platform string as the specification words it: `{os}-{cpuArch}` with a
`v{armRevision}` suffix appended only when the CPU architecture is ARM and
the ARM revision is known. -/
def specPlatformString (env : Env) : String :=
  env.osPlatform ++ "-" ++ env.osArch ++
    (if env.osArch == "arm" && jsTruthy env.armVersion
     then "v" ++ env.armVersion.getD "" else "")

/-- A commit-SHA-style identifier, as the specification words it: 7 to 40
lowercase hexadecimal digits. -/
def isCommitShaStyle (s : String) : Bool :=
  7 ≤ s.length && s.length ≤ 40 &&
    s.data.all (fun c => c.isDigit || ('a' ≤ c && c ≤ 'f'))

/-- A successful HTTP status, as the specification words it (a non-2xx
response is an error condition). -/
def isSuccessStatus (n : Nat) : Bool :=
  200 ≤ n && n ≤ 299

/-- The archive architecture name as the specification words it: x64→amd64,
ppc64→ppc64le, arm→`armv{revision}` or plain `arm` when no revision is known,
all other architectures unchanged. -/
def specArchExt (arch : String) (armRevision : Option String) : String :=
  if arch = "x64" then "amd64"
  else if arch = "ppc64" then "ppc64le"
  else if arch = "arm" then
    (if jsTruthy armRevision then "armv" ++ armRevision.getD "" else "arm")
  else arch

/-- The archive filename as the specification words it:
`undock_{version}_{platform}_{arch}{ext}` with platform `windows` and
extension `.zip` on win32, the OS identifier and `.tar.gz` otherwise. -/
def specFilename (version os arch : String) (armRevision : Option String) : String :=
  "undock_" ++ version ++ "_" ++ (if os = "win32" then "windows" else os) ++ "_" ++
    specArchExt arch armRevision ++ (if os = "win32" then ".zip" else ".tar.gz")

/-! ### Concrete environments, worlds and runs used by witnesses and
counterexamples -/

/-- A plain linux/x64 runner. -/
def envLinux : Env :=
  { osPlatform := "linux", osArch := "x64", armVersion := none
    homedir := "/home/runner" }

/-- A release manifest holding versions 1.0.0 and 2.0.0. -/
def manifestOk : List (String × GitHubRelease) :=
  [("1.0.0", { tag_name := "v1.0.0" }), ("2.0.0", { tag_name := "v2.0.0" }),
   ("latest", { tag_name := "v2.0.0" })]

/-- Cache collaborators: hosted tool cache hit, GitHub Actions cache feature
unavailable, all file operations succeed. -/
def wcHit : CacheWorld :=
  { tcFind := fun _ _ _ => "/opt/hostedtoolcache/undock-dl-bin/x64"
    tcCacheDir := fun _ _ _ _ => .ok "/opt/hostedtoolcache/undock-dl-bin/x64"
    ghaFeatureAvailable := false
    ghaRestoreCache := fun _ _ => .ok none
    ghaSaveCache := fun _ _ => .ok 1
    copyFile := fun _ _ => .ok () }

/-- Cache collaborators: local and remote miss, GitHub Actions cache feature
available, every call succeeds. -/
def wcMissOk : CacheWorld :=
  { tcFind := fun _ _ _ => ""
    tcCacheDir := fun _ _ _ _ => .ok "/opt/hostedtoolcache/undock-dl-bin/x64"
    ghaFeatureAvailable := true
    ghaRestoreCache := fun _ _ => .ok none
    ghaSaveCache := fun _ _ => .ok 42
    copyFile := fun _ _ => .ok () }

/-- Cache collaborators: everything succeeds except the GitHub Actions cache
upload, which rejects. -/
def wcUploadFail : CacheWorld :=
  { tcFind := fun _ _ _ => ""
    tcCacheDir := fun _ _ _ _ => .ok "/opt/hostedtoolcache/undock-dl-bin/x64"
    ghaFeatureAvailable := true
    ghaRestoreCache := fun _ _ => .ok none
    ghaSaveCache := fun _ _ => .error "gha upload failed"
    copyFile := fun _ _ => .ok () }

/-- Cache collaborators: local miss, GitHub Actions cache feature available,
and the restore call rejects. -/
def wcRestoreFail : CacheWorld :=
  { tcFind := fun _ _ _ => ""
    tcCacheDir := fun _ _ _ _ => .ok "/opt/hostedtoolcache/undock-dl-bin/x64"
    ghaFeatureAvailable := true
    ghaRestoreCache := fun _ _ => .error "restore exploded"
    ghaSaveCache := fun _ _ => .ok 42
    copyFile := fun _ _ => .ok () }

/-- A Cache instance as `Install.download` constructs it for version 1.0.0 on
the linux/x64 runner. -/
def cacheEx : Cache :=
  { opts :=
      { htcName := "undock-dl-bin", htcVersion := "1.0.0"
        baseCacheDir := "/home/runner/.bin", cacheFile := "undock" }
    env := envLinux }

/-- Install collaborators: manifest fetch succeeds with status 200, hosted
tool cache hit. -/
def wHappyHit : InstallWorld :=
  { env := envLinux
    fetch := fun _ => .ok { statusCode := some 200, body := "manifest-body" }
    jsonParse := fun _ => .ok manifestOk
    cacheWorld := wcHit
    downloadTool := fun _ => .ok "/tmp/htc/download"
    extractZip := fun _ => .ok "/tmp/htc/ext"
    extractTar := fun _ => .ok "/tmp/htc/ext" }

/-- Install collaborators: manifest fetch succeeds, both cache tiers miss,
download/extract/save all succeed, GitHub Actions cache feature available. -/
def wMissOk : InstallWorld :=
  { wHappyHit with cacheWorld := wcMissOk }

/-- Install collaborators: the manifest fetch returns HTTP 404. -/
def w404 : InstallWorld :=
  { wHappyHit with
    fetch := fun _ => .ok { statusCode := some 404, body := "not found" }
    jsonParse := fun _ => .error "unused" }

/-- Install collaborators: the manifest fetch returns HTTP 300 (a non-2xx
status below 400) with a well-formed manifest body. -/
def w300 : InstallWorld :=
  { wHappyHit with
    fetch := fun _ => .ok { statusCode := some 300, body := "manifest-body" } }

/-- A 40-hexadecimal-digit commit-SHA-style tag. -/
def shaTag : String := "8c7f2a1d9b3e4f5a6c7d8e9f0a1b2c3d4e5f6a7b"

/-- Install collaborators: the manifest maps version 1.0.0 to a
commit-SHA-style tag. -/
def wSha : InstallWorld :=
  { wHappyHit with
    jsonParse := fun _ => .ok [("1.0.0", { tag_name := shaTag })] }

/-- The ARM runner environment used in examples. -/
def envArm : Env :=
  { osPlatform := "linux", osArch := "arm", armVersion := some "7", homedir := "/h" }

/-- An x64 environment whose node build nonetheless carries an `arm_version`
configuration value. -/
def envX64Arm : Env :=
  { osPlatform := "linux", osArch := "x64", armVersion := some "7", homedir := "/h" }

/-! ### Helper lemmas -/

theorem fmt_dash3 (a b c : String) :
    fmt "%s-%s-%s" [a, b, c] = a ++ "-" ++ b ++ "-" ++ c := by
  have hT : ("%s-%s-%s" : String).data = ['%', 's', '-', '%', 's', '-', '%', 's'] := rfl
  apply String.ext
  show formatPS ("%s-%s-%s" : String).data [a, b, c] = _
  rw [hT]
  simp [formatPS, String.data_append]

theorem fmt_undock_template (v p a e : String) :
    fmt "undock_%s_%s_%s%s" [v, p, a, e] = "undock_" ++ v ++ "_" ++ p ++ "_" ++ a ++ e := by
  have hT : ("undock_%s_%s_%s%s" : String).data
      = ['u', 'n', 'd', 'o', 'c', 'k', '_', '%', 's', '_', '%', 's', '_', '%', 's', '%', 's'] := rfl
  apply String.ext
  show formatPS ("undock_%s_%s_%s%s" : String).data [v, p, a, e] = _
  rw [hT]
  simp [formatPS, String.data_append]

theorem pathJoin_nest (a b ver plat file : String) :
    pathJoin [pathJoin [pathJoin [a, b], ver, plat], file]
      = pathJoin [a, b, ver, plat, file] := by
  apply String.ext
  simp [pathJoin, String.data_append]

theorem copyToCache_ok {c : Cache} {w : CacheWorld} {f p : String} {log : List Event}
    (h : c.copyToCache w f = (.ok p, log)) : p = c.cachePath := by
  unfold Cache.copyToCache at h
  cases hc : w.copyFile f c.cachePath <;> rw [hc] at h <;> simp_all

theorem find_ok {c : Cache} {w : CacheWorld} {p : String} {log : List Event}
    (h : c.find w = (.ok p, log)) : p = c.cachePath ∨ p = "" := by
  unfold Cache.find at h
  simp only [ne_eq] at h
  split at h
  · exact Or.inl (copyToCache_ok h)
  · split at h
    · split at h
      · simp at h
      · split at h
        · split at h
          · simp at h
          · cases hcc : Cache.copyToCache c w _ with
            | mk r lg =>
              cases r with
              | error e => rw [hcc] at h; simp at h
              | ok q =>
                rw [hcc] at h
                simp at h
                obtain ⟨h1, -⟩ := h
                subst h1
                exact Or.inl (copyToCache_ok hcc)
        · simp at h
          exact Or.inr h.1.symm
    · simp at h
      exact Or.inr h.1.symm

theorem save_ok {c : Cache} {w : CacheWorld} {f p : String} {log : List Event}
    (h : c.save w f = (.ok p, log)) : p = c.cachePath := by
  unfold Cache.save at h
  split at h
  · simp at h
  next cp log1 heq =>
    split at h
    · simp at h
    · split at h
      · split at h
        · simp at h
        · simp at h
          obtain ⟨h1, -⟩ := h
          subst h1
          exact copyToCache_ok heq
      · simp at h
        obtain ⟨h1, -⟩ := h
        subst h1
        exact copyToCache_ok heq

theorem copyToCache_events {c : Cache} {w : CacheWorld} {f : String} :
    (c.copyToCache w f).2 = [] ∨ (c.copyToCache w f).2 = [Event.copied f c.cachePath] := by
  unfold Cache.copyToCache
  cases hc : w.copyFile f c.cachePath <;> simp

theorem save_ghaSaveCalled {c : Cache} {w : CacheWorld} {f : String}
    {ps : List String} {k : String}
    (h : Event.ghaSaveCalled ps k ∈ (c.save w f).2) :
    ps = [c.cacheDir] ∧ k = c.ghaCacheKey := by
  have hl := copyToCache_events (c := c) (w := w) (f := f)
  unfold Cache.save at h
  split at h
  next e log heq =>
    rw [heq] at hl
    simp at hl
    rcases hl with hl | hl <;> rw [hl] at h <;> simp at h
  next cp log1 heq =>
    rw [heq] at hl
    simp at hl
    split at h
    · rcases hl with hl | hl <;> rw [hl] at h <;> simp at h
    · split at h
      · split at h <;>
          (rcases hl with hl | hl <;> rw [hl] at h <;> simp at h <;> exact ⟨h.1, h.2⟩)
      · rcases hl with hl | hl <;> rw [hl] at h <;> simp at h

theorem find_ghaRestoreCalled {c : Cache} {w : CacheWorld}
    {ps : List String} {k : String}
    (h : Event.ghaRestoreCalled ps k ∈ (c.find w).2) :
    ps = [c.cacheDir] ∧ k = c.ghaCacheKey := by
  unfold Cache.find at h
  simp only [ne_eq] at h
  split at h
  · rcases copyToCache_events (c := c) (w := w) with hl | hl <;> rw [hl] at h <;> simp at h
  · split at h
    · split at h
      · simp at h
        exact ⟨h.1, h.2⟩
      · split at h
        · split at h
          · simp at h
            exact ⟨h.1, h.2⟩
          · rcases copyToCache_events (c := c) (w := w) with hl | hl <;>
              rw [hl] at h <;> simp at h <;> exact ⟨h.1, h.2⟩
        · simp at h
          exact ⟨h.1, h.2⟩
    · simp at h

theorem getRelease_events (w : InstallWorld) (dv : DownloadVersion) :
    (Install.getRelease w dv).2 = [Event.manifestFetched dv.releasesURL] := by
  unfold Install.getRelease
  split
  · rfl
  · dsimp only
    split
    · rfl
    · split
      · rfl
      · split <;> rfl

theorem download_fetches_manifest (w : InstallWorld) (v : String) (g : Option Bool) :
    Event.manifestFetched (Install.getDownloadVersion v).releasesURL
      ∈ (Install.download w v g).2 := by
  unfold Install.download
  dsimp only
  cases hr : Install.getRelease w (Install.getDownloadVersion v) with
  | mk r log1 =>
    have hlog : log1 = [Event.manifestFetched (Install.getDownloadVersion v).releasesURL] := by
      have h2 := getRelease_events w (Install.getDownloadVersion v)
      rw [hr] at h2
      exact h2
    subst hlog
    cases r with
    | error e => simp
    | ok release =>
      dsimp only
      split
      · simp
      · split
        · simp
        · split
          · simp
          · split
            · simp
            · split
              · simp
              · simp


/-! ### Claim theorems -/

/-- C1 (counterexample): the claim that a failing remote-cache upload does not
fail `Cache.save` is false.  With the GitHub Actions cache backend available
and the upload rejecting, `save` propagates the upload error instead of
returning the canonical cache path. -/
theorem C1_counterexample :
    wcUploadFail.ghaFeatureAvailable = true
    ∧ (Cache.save cacheEx wcUploadFail "/tmp/build/undock").1 = .error (.lib "gha upload failed")
    ∧ (Cache.save cacheEx wcUploadFail "/tmp/build/undock").1 ≠ .ok cacheEx.cachePath := by
  refine ⟨rfl, by rfl, ?_⟩
  have h : (Cache.save cacheEx wcUploadFail "/tmp/build/undock").1
      = .error (.lib "gha upload failed") := by rfl
  rw [h]
  simp

/-- C1 (amended): when the remote-cache upload step throws, `Cache.save` fails
with that error — but the local copy into the canonical cache path and the
hosted-tool-cache registration were already performed and remain in effect,
as the event log of the failed run shows. -/
theorem C1_save_amended (c : Cache) (w : CacheWorld) (file e htcp : String)
    (h1 : w.copyFile file c.cachePath = .ok ())
    (h2 : w.tcCacheDir c.cacheDir c.opts.htcName c.opts.htcVersion c.platform = .ok htcp)
    (h3 : w.ghaFeatureAvailable = true)
    (h4 : w.ghaSaveCache [c.cacheDir] c.ghaCacheKey = .error e) :
    c.save w file = (.error (.lib e),
      [Event.copied file c.cachePath,
       Event.htcRegistered c.cacheDir c.opts.htcName c.opts.htcVersion c.platform,
       Event.ghaSaveCalled [c.cacheDir] c.ghaCacheKey]) := by
  simp [Cache.save, Cache.copyToCache, h1, h2, h3, h4]

/-- C1 (witness): the amended statement at a concrete cache and world. -/
theorem C1_save_amended_witness :
    Cache.save cacheEx wcUploadFail "/tmp/build/undock"
      = (.error (.lib "gha upload failed"),
         [Event.copied "/tmp/build/undock" "/home/runner/.bin/1.0.0/linux-x64/undock",
          Event.htcRegistered "/home/runner/.bin/1.0.0/linux-x64" "undock-dl-bin" "1.0.0" "linux-x64",
          Event.ghaSaveCalled ["/home/runner/.bin/1.0.0/linux-x64"] "undock-dl-bin-1.0.0-linux-x64"]) :=
  C1_save_amended cacheEx wcUploadFail "/tmp/build/undock" "gha upload failed"
    "/opt/hostedtoolcache/undock-dl-bin/x64" rfl rfl rfl rfl

/-- C2 (counterexample): the claim that Cache.find never propagates a
cache-layer exception is false: when restoreCache rejects, `find` fails with
that error rather than treating it as a miss. -/
theorem C2_counterexample :
    wcRestoreFail.ghaFeatureAvailable = true
    ∧ (Cache.find cacheEx wcRestoreFail).1 = .error (.lib "restore exploded") :=
  ⟨rfl, by rfl⟩

/-- C2 (amended): a plain miss is a normal outcome — when the hosted tool
cache misses and the GitHub Actions cache feature is unavailable, or its
restore reports a miss, `find` returns the empty string without an error;
cache-layer exceptions, however, propagate (see the counterexample). -/
theorem C2_find_amended (c : Cache) (w : CacheWorld)
    (hmiss : w.tcFind c.opts.htcName c.opts.htcVersion c.platform = "") :
    (w.ghaFeatureAvailable = false → c.find w = (.ok "", []))
    ∧ (∀ r, w.ghaFeatureAvailable = true →
        w.ghaRestoreCache [c.cacheDir] c.ghaCacheKey = .ok r → jsTruthy r = false →
        c.find w = (.ok "", [.ghaRestoreCalled [c.cacheDir] c.ghaCacheKey])) := by
  constructor
  · intro hf
    simp [Cache.find, hmiss, hf]
  · intro r hf hr hj
    simp [Cache.find, hmiss, hf, hr, hj]

/-- C2 (witness): the amended statement at a concrete cache and world with
both tiers missing. -/
theorem C2_find_amended_witness :
    Cache.find cacheEx wcMissOk
      = (.ok "", [.ghaRestoreCalled ["/home/runner/.bin/1.0.0/linux-x64"]
          "undock-dl-bin-1.0.0-linux-x64"]) :=
  (C2_find_amended cacheEx wcMissOk rfl).2 none rfl rfl rfl

/-- C3: the `ghaNoCache` flag of `Install.download` is never consulted —
`CacheOpts` declares no such field and `Cache.save` checks only feature
availability.  On a full cache miss with the GitHub Actions cache feature
available and `ghaNoCache = true`, the remote upload is still performed, and
the entire result of `download` is independent of the flag. -/
theorem C3_ghaNoCache_ignored :
    Event.ghaSaveCalled ["/home/runner/.bin/1.0.0/linux-x64"] "undock-dl-bin-1.0.0-linux-x64"
        ∈ (Install.download wMissOk "1.0.0" (some true)).2
    ∧ Install.download wMissOk "1.0.0" (some true) = Install.download wMissOk "1.0.0" (some false)
    ∧ Install.download wMissOk "1.0.0" (some true) = Install.download wMissOk "1.0.0" none := by
  refine ⟨?_, by rfl, by rfl⟩
  have h : (Install.download wMissOk "1.0.0" (some true)).2
      = [Event.manifestFetched "https://raw.githubusercontent.com/docker/actions-toolkit/main/.github/undock-releases.json",
         Event.ghaRestoreCalled ["/home/runner/.bin/1.0.0/linux-x64"] "undock-dl-bin-1.0.0-linux-x64",
         Event.toolDownloaded "https://github.com/crazy-max/undock/releases/download/v1.0.0/undock_1.0.0_linux_amd64.tar.gz",
         Event.extracted false "/tmp/htc/ext",
         Event.copied "/tmp/htc/ext/undock" "/home/runner/.bin/1.0.0/linux-x64/undock",
         Event.htcRegistered "/home/runner/.bin/1.0.0/linux-x64" "undock-dl-bin" "1.0.0" "linux-x64",
         Event.ghaSaveCalled ["/home/runner/.bin/1.0.0/linux-x64"] "undock-dl-bin-1.0.0-linux-x64"] := by
    rfl
  rw [h]
  simp

/-- C4 (counterexample): the claim that a concrete requested version is
resolved without consulting the manifest is false.  For the concrete version
2.0.0, `download` fetches the manifest, and when that fetch returns 404 the
whole download fails. -/
theorem C4_counterexample :
    Install.download w404 "2.0.0" none
      = (.error (.thrown "Failed to get Undock releases from https://raw.githubusercontent.com/docker/actions-toolkit/main/.github/undock-releases.json with status code 404: not found"),
         [.manifestFetched "https://raw.githubusercontent.com/docker/actions-toolkit/main/.github/undock-releases.json"]) := by
  rfl

/-- C4 (amended): `Install.download` always fetches and consults the release
manifest, for every requested version including concrete ones; when the
manifest maps the concrete version 2.0.0 to tag v2.0.0, the resolved version
spec equals the normalized requested version, as the returned canonical path
shows. -/
theorem C4_amended (w : InstallWorld) (v : String) (g : Option Bool) :
    Event.manifestFetched (Install.getDownloadVersion v).releasesURL
        ∈ (Install.download w v g).2
    ∧ Install.download wHappyHit "2.0.0" none
        = (.ok "/home/runner/.bin/2.0.0/linux-x64/undock",
           [.manifestFetched "https://raw.githubusercontent.com/docker/actions-toolkit/main/.github/undock-releases.json",
            .copied "/opt/hostedtoolcache/undock-dl-bin/x64/undock" "/home/runner/.bin/2.0.0/linux-x64/undock"]) :=
  ⟨download_fetches_manifest w v g, by rfl⟩

/-- C5 (counterexample): the claim that every non-success status raises is
false as stated — HTTP 300 is not a success status, yet `getRelease` returns
a release for it (the code only raises for effective status at least 400). -/
theorem C5_counterexample :
    isSuccessStatus 300 = false
    ∧ Install.getRelease w300 (Install.getDownloadVersion "1.0.0")
        = (.ok { tag_name := "v1.0.0" },
           [.manifestFetched "https://raw.githubusercontent.com/docker/actions-toolkit/main/.github/undock-releases.json"]) :=
  ⟨by decide, by rfl⟩

/-- C5 (amended): `Install.getRelease` never fabricates a release — it throws
for every effective status of at least 400 (a missing or zero status code is
treated as 500), with a message carrying the releases URL, the status code
and the body; on a below-400 status whose parsed manifest lacks the requested
version it throws the not-found error; and an HTTP 404 for version 9.9.9
always raises. -/
theorem C5_getRelease_amended (w : InstallWorld) (dv : DownloadVersion) (resp : HttpResponse)
    (hf : w.fetch dv.releasesURL = .ok resp) :
    (effectiveStatus resp.statusCode ≥ 400 →
      (Install.getRelease w dv).1 = .error (.thrown
        ("Failed to get Undock releases from " ++ dv.releasesURL ++ " with status code "
          ++ toString (effectiveStatus resp.statusCode) ++ ": " ++ resp.body)))
    ∧ (∀ releases, effectiveStatus resp.statusCode < 400 →
        w.jsonParse resp.body = .ok releases → lookupRelease releases dv.version = none →
        (Install.getRelease w dv).1 = .error (.thrown
          ("Cannot find Undock release " ++ dv.version ++ " in " ++ dv.releasesURL)))
    ∧ (Install.getRelease w404 (Install.getDownloadVersion "9.9.9")).1
        = .error (.thrown "Failed to get Undock releases from https://raw.githubusercontent.com/docker/actions-toolkit/main/.github/undock-releases.json with status code 404: not found") := by
  refine ⟨?_, ?_, by rfl⟩
  · intro hge
    unfold Install.getRelease
    rw [hf]
    simp [hge]
  · intro releases hlt hp hn
    unfold Install.getRelease
    rw [hf]
    simp [Nat.not_le_of_lt hlt, hp, hn]

/-- C5 (witness): the amended statement applied to the 404 world. -/
theorem C5_getRelease_amended_witness :
    (Install.getRelease w404 (Install.getDownloadVersion "9.9.9")).1
      = .error (.thrown ("Failed to get Undock releases from "
          ++ (Install.getDownloadVersion "9.9.9").releasesURL ++ " with status code "
          ++ toString (effectiveStatus (some 404)) ++ ": " ++ "not found")) :=
  (C5_getRelease_amended w404 (Install.getDownloadVersion "9.9.9")
    { statusCode := some 404, body := "not found" } rfl).1 (by decide)

/-- C6 (counterexample): the claim that commit-SHA-style version specs never
trigger the invalid-version error is false — a 40-hexadecimal-digit tag flows
through `vspec` unchanged, fails the semver check (there is no commit-SHA
special case in the undock installer) and `download` raises the
invalid-version error for it. -/
theorem C6_counterexample :
    isCommitShaStyle (Install.vspec shaTag) = true
    ∧ (Install.download wSha "1.0.0" none).1 = .error (.thrown
        ("Invalid Undock version \"" ++ shaTag ++ "\".")) :=
  ⟨by decide, by rfl⟩

/-- C6 (amended): `Install.download` raises the invalid-version error exactly
when `semver.clean` of the normalized release tag is not a valid semantic
version — commit-SHA-style identifiers included. -/
theorem C6_invalid_version_amended (w : InstallWorld) (v : String) (g : Option Bool)
    (rel : GitHubRelease)
    (hrel : (Install.getRelease w (Install.getDownloadVersion v)).1 = .ok rel)
    (hsem : semverValid ((semverClean (Install.vspec rel.tag_name)).getD "") = none) :
    (Install.download w v g).1 = .error (.thrown
      ("Invalid Undock version \"" ++ Install.vspec rel.tag_name ++ "\".")) := by
  unfold Install.download
  dsimp only
  cases hr : Install.getRelease w (Install.getDownloadVersion v) with
  | mk r log1 =>
    rw [hr] at hrel
    simp at hrel
    subst hrel
    simp [hsem]

/-- C6 (witness): the amended statement applied to the commit-SHA world. -/
theorem C6_invalid_version_amended_witness :
    (Install.download wSha "1.0.0" none).1 = .error (.thrown
      ("Invalid Undock version \"" ++ Install.vspec shaTag ++ "\".")) :=
  C6_invalid_version_amended wSha "1.0.0" none { tag_name := shaTag } (by rfl) (by rfl)

/-- C7 (counterexample): the claim that the `v{armRevision}` suffix is
appended only when the CPU architecture is ARM is false — the code never
consults the architecture, only the truthiness of the ARM revision value, so
an x64 environment carrying an ARM revision still receives the suffix. -/
theorem C7_counterexample :
    platformString envX64Arm = "linux-x64v7"
    ∧ specPlatformString envX64Arm = "linux-x64"
    ∧ platformString envX64Arm ≠ specPlatformString envX64Arm := by
  decide

/-- C7 (amended): the cache platform string is `{os}-{cpuArch}` with the
`v{armRevision}` suffix appended exactly when the ARM revision value is
truthy (the architecture is not consulted); it is deterministic for a fixed
OS/arch/ARM-revision triple, and the composite key and paths a Cache passes
to the remote save and restore calls coincide. -/
theorem C7_platform_amended (e e' : Env) (c : Cache) (w w' : CacheWorld) (file : String)
    (ps ps' : List String) (k k' : String) :
    (jsTruthy e.armVersion = true →
      platformString e = e.osPlatform ++ "-" ++ e.osArch ++ "v" ++ e.armVersion.getD "")
    ∧ (jsTruthy e.armVersion = false →
      platformString e = e.osPlatform ++ "-" ++ e.osArch)
    ∧ (e.osPlatform = e'.osPlatform → e.osArch = e'.osArch → e.armVersion = e'.armVersion →
      platformString e = platformString e')
    ∧ (Event.ghaSaveCalled ps k ∈ (c.save w file).2 →
      Event.ghaRestoreCalled ps' k' ∈ (c.find w').2 → k = k' ∧ ps = ps') := by
  refine ⟨?_, ?_, ?_, ?_⟩
  · intro h
    unfold platformString
    rw [h]
    apply String.ext
    simp [String.data_append]
  · intro h
    unfold platformString
    rw [h]
    simp
  · intro h1 h2 h3
    unfold platformString
    rw [h1, h2, h3]
  · intro hs hr
    obtain ⟨hps, hk⟩ := save_ghaSaveCalled hs
    obtain ⟨hps', hk'⟩ := find_ghaRestoreCalled hr
    subst hps hk hps' hk'
    exact ⟨rfl, rfl⟩

/-- C7 (witness): the amended statement at concrete environments and at a
concrete cache whose save and find both talk to the remote backend. -/
theorem C7_platform_amended_witness :
    platformString envArm = "linux" ++ "-" ++ "arm" ++ "v" ++ "7"
    ∧ (("undock-dl-bin-1.0.0-linux-x64" : String) = "undock-dl-bin-1.0.0-linux-x64"
       ∧ (["/home/runner/.bin/1.0.0/linux-x64"] : List String)
           = ["/home/runner/.bin/1.0.0/linux-x64"]) :=
  ⟨(C7_platform_amended envArm envArm cacheEx wcUploadFail wcMissOk "/tmp/build/undock"
      ["/home/runner/.bin/1.0.0/linux-x64"] ["/home/runner/.bin/1.0.0/linux-x64"]
      "undock-dl-bin-1.0.0-linux-x64" "undock-dl-bin-1.0.0-linux-x64").1 (by decide),
   (C7_platform_amended envArm envArm cacheEx wcUploadFail wcMissOk "/tmp/build/undock"
      ["/home/runner/.bin/1.0.0/linux-x64"] ["/home/runner/.bin/1.0.0/linux-x64"]
      "undock-dl-bin-1.0.0-linux-x64" "undock-dl-bin-1.0.0-linux-x64").2.2.2
     (by decide) (by decide)⟩

/-- C8: `Install.filename` is pure and deterministic and matches the
specification formula `undock_{version}_{platform}_{arch}{ext}` — with
platform `windows` and extension `.zip` on win32, the OS identifier and
`.tar.gz` otherwise, and x64→amd64, ppc64→ppc64le,
arm→`armv{revision}`/`arm`, everything else unchanged; in particular the two
specified examples hold. -/
theorem C8_filename_pure (env : Env) (version : String) :
    Install.filename env version
      = specFilename version env.osPlatform env.osArch env.armVersion
    ∧ Install.filename { osPlatform := "win32", osArch := "x64", armVersion := none, homedir := "" } "1.2.3"
      = "undock_1.2.3_windows_amd64.zip"
    ∧ Install.filename { osPlatform := "linux", osArch := "arm", armVersion := some "7", homedir := "" } "1.2.3"
      = "undock_1.2.3_linux_armv7.tar.gz" := by
  refine ⟨?_, by decide, by decide⟩
  unfold Install.filename specFilename specArchExt
  rw [fmt_undock_template]

/-- C9: `Install.vspec` strips leading and trailing `v` characters, so
prefixing a version string with `v` never changes the result, and both
`v0.4.1` and `0.4.1` normalize to `0.4.1`. -/
theorem C9_vspec_strip (s : String) :
    Install.vspec ("v" ++ s) = Install.vspec s
    ∧ Install.vspec "v0.4.1" = "0.4.1"
    ∧ Install.vspec "0.4.1" = "0.4.1" := by
  refine ⟨?_, by decide, by decide⟩
  have hv : (("v" ++ s) : String).data = 'v' :: s.data := by
    have h1 : ("v" : String).data = ['v'] := rfl
    rw [String.data_append, h1]
    rfl
  unfold Install.vspec
  rw [hv]
  simp [List.dropWhile]

/-- C10: whenever `Install.download` returns successfully, the returned path
is the canonical cache path
`{home}/.bin/{versionSpec}/{platformString}/{cacheFile}` with the cache file
`undock.exe` on win32 and `undock` otherwise — on the cache-hit branch and on
the download-extract-save branch alike. -/
theorem C10_download_path (w : InstallWorld) (v : String) (g : Option Bool)
    (p : String) (log : List Event)
    (h : Install.download w v g = (.ok p, log)) :
    ∃ vs, p = pathJoin [w.env.homedir, ".bin", vs, platformString w.env,
      if w.env.osPlatform = "win32" then "undock.exe" else "undock"] := by
  unfold Install.download at h
  simp only [ne_eq] at h
  cases hr : Install.getRelease w (Install.getDownloadVersion v) with
  | mk r log1 =>
    rw [hr] at h
    cases r with
    | error e => simp at h
    | ok release =>
      refine ⟨Install.vspec release.tag_name, ?_⟩
      dsimp only at h
      split at h
      · simp at h
      · split at h
        · simp at h
        next cacheFoundPath log2 heq2 =>
          split at h
          next hne =>
            simp at h
            obtain ⟨h1, -⟩ := h
            subst h1
            rcases find_ok heq2 with hc | hc
            · rw [hc]
              simp [Cache.cachePath, Cache.cacheDir, Cache.platform, pathJoin_nest]
            · exact absurd hc hne
          · split at h
            · simp at h
            next htcDownloadPath hdl =>
              split at h
              · simp at h
              next htcExtPath hext =>
                cases hsv : Cache.save
                    { opts :=
                        { htcName := "undock-dl-bin"
                          htcVersion := Install.vspec release.tag_name
                          baseCacheDir := pathJoin [w.env.homedir, ".bin"]
                          cacheFile := if w.env.osPlatform = "win32" then "undock.exe" else "undock" }
                      env := w.env }
                    w.cacheWorld
                    (pathJoin [htcExtPath,
                      if w.env.osPlatform = "win32" then "undock.exe" else "undock"]) with
                | mk sr slog =>
                  rw [hsv] at h
                  cases sr with
                  | error e2 => simp at h
                  | ok q =>
                    simp at h
                    obtain ⟨h1, -⟩ := h
                    subst h1
                    rw [save_ok hsv]
                    simp [Cache.cachePath, Cache.cacheDir, Cache.platform, pathJoin_nest]

/-- C10 (witness): the canonical-path statement at the concrete happy-path
world, where download returns via the cache-hit branch. -/
theorem C10_download_path_witness :
    ∃ vs, "/home/runner/.bin/2.0.0/linux-x64/undock"
      = pathJoin [wHappyHit.env.homedir, ".bin", vs, platformString wHappyHit.env,
          if wHappyHit.env.osPlatform = "win32" then "undock.exe" else "undock"] :=
  C10_download_path wHappyHit "2.0.0" none "/home/runner/.bin/2.0.0/linux-x64/undock"
    [.manifestFetched "https://raw.githubusercontent.com/docker/actions-toolkit/main/.github/undock-releases.json",
     .copied "/opt/hostedtoolcache/undock-dl-bin/x64/undock" "/home/runner/.bin/2.0.0/linux-x64/undock"]
    (by rfl)

end ActionsToolkit
